import Mathlib

/-!
Verification of the functional-programming container library exercised by
`packages/example/src/index.ts` (the `@morphism/fp` layer: `pipe`, `flow`,
`Option`, `Either`, `TaskEither`).  The library itself is a dependency of the
example file and its implementation is not part of the checked-in sources, so
every combinator below is modelled from the specification of the library and
the way the example file consumes it.  JavaScript thunks and futures are
shallowly embedded: a throwing computation is a function into `Except Thrown`,
and a deferred computation (`TaskEither`) is a state-passing function over an
invocation counter, which makes "the underlying effect ran" observable.
-/

set_option maxHeartbeats 1600000

/- ## JavaScript value and error model -/

/-- Modelled from the spec: the values a JavaScript computation may throw —
an `Error` instance or any non-Error value (string, number, boolean, null,
plain object). -/
inductive JSValue : Type where
  | str (s : String)
  | num (n : Int)
  | boolean (b : Bool)
  | null
  | obj
deriving DecidableEq

/-- Modelled from the spec: the "generic error representation (message +
optional cause)" that the `ErrorOr` alias fixes the failure side to. -/
structure JSError : Type where
  message : String
  cause : Option JSValue
deriving DecidableEq

/-- Modelled from the spec: a thrown JavaScript value is either a genuine
`Error` instance or an arbitrary non-Error throwable. -/
inductive Thrown : Type where
  | error (e : JSError)
  | value (v : JSValue)
deriving DecidableEq

/-- Modelled from the spec: a printable description of a non-Error throwable,
used when coercing it into an Error-shaped failure. -/
def JSValue.describe : JSValue → String
  | .str s => s
  | .num n => toString n
  | .boolean b => toString b
  | .null => "null"
  | .obj => "[object Object]"

/-- Modelled from the spec: "non-Error throwables must be coerced into an
Error-shaped failure" — an `Error` instance is kept as is, anything else is
wrapped into a fresh `JSError` recording the thrown value as its cause. -/
def coerceError : Thrown → JSError
  | .error e => e
  | .value v => JSError.mk (JSValue.describe v) (Option.some v)

/- ## Composition primitives -/

/-- Modelled from the spec: `pipe(value, fn1, …, fnN)` applies the functions
left to right; the unbounded-arity function list is embedded as a `List` of
unary functions over a fixed type. -/
def pipe (x : α) (fns : List (α → α)) : α :=
  fns.foldl (fun a f => f a) x

/-- Modelled from the spec: `flow(fn1, …, fnN)` composes the unary functions
into one function (left-to-right composition, built by folding composition —
not defined by delegating to `pipe`, so that the equivalence with `pipe` is a
real theorem). -/
def flow (fns : List (α → α)) : α → α :=
  fns.foldl (fun g f => fun x => f (g x)) (fun x => x)

/-- Modelled from the spec: the two-function overload of variadic `pipe`,
which lets the intermediate types differ (used by the concrete `Option`
pipeline scenarios). -/
def pipe2 (x : α) (f : α → β) (g : β → γ) : γ :=
  g (f x)

/-- Instrumented `pipe`: the same left-to-right fold, threading a counter that
each function application bumps, so the number of function invocations per run
is observable. -/
def pipeCount (x : α) (fns : List (α → α)) (k : Nat) : α × Nat :=
  fns.foldl (fun (p : α × Nat) f => (f p.1, p.2 + 1)) (x, k)

/- ## Optional type -/

/-- Modelled from the spec: `Optional<T>` is a variant of
Present(value)/Absent (the library calls the variants `some`/`none`). -/
inductive Optional (α : Type) : Type where
  | some (a : α)
  | none
deriving DecidableEq

/-- Modelled from the spec: `fromNullable(x)` is Present if `x` is not
null-like, else Absent; the nullable input is embedded as a Lean `Option`. -/
def Optional.fromNullable : Option α → Optional α
  | Option.some a => Optional.some a
  | Option.none => Optional.none

/-- Modelled from the spec: `Optional.map` applies `f` only on Present;
Absent passes through unchanged. -/
def Optional.map (f : α → β) : Optional α → Optional β
  | .some a => .some (f a)
  | .none => .none

/-- Modelled from the spec: `Optional.chain` is the flattening bind; Absent
short-circuits without invoking `f`. -/
def Optional.chain (f : α → Optional β) : Optional α → Optional β
  | .some a => f a
  | .none => .none

/-- Modelled from the spec: `Optional.fromPredicate` yields Present if the
predicate holds, else Absent. -/
def Optional.fromPredicate (pred : α → Bool) (a : α) : Optional α :=
  if pred a then .some a else .none

/-- Modelled from the spec: `Optional.fold` is the sole pattern-matching
exit; exactly one branch runs. -/
def Optional.fold (onAbsent : Unit → ρ) (onPresent : α → ρ) : Optional α → ρ
  | .some a => onPresent a
  | .none => onAbsent ()

/-- Modelled from the spec: `Optional.getOrElse` is the fold specialisation
whose absent branch is a lazy thunk. -/
def Optional.getOrElse (onAbsent : Unit → α) : Optional α → α
  | .some a => a
  | .none => onAbsent ()

/- ## Either (Result) type -/

/-- Modelled from the spec: `Result<E, A>` / `Either<E, A>` is a strict
two-variant sum, Left carrying failure and Right carrying success. -/
inductive Either (ε α : Type) : Type where
  | left (e : ε)
  | right (a : α)
deriving DecidableEq

/-- Modelled from the spec: `isLeft` variant predicate. -/
def Either.isLeft : Either ε α → Bool
  | .left _ => true
  | .right _ => false

/-- Modelled from the spec: `isRight` variant predicate. -/
def Either.isRight : Either ε α → Bool
  | .left _ => false
  | .right _ => true

/-- Modelled from the spec: `Either.map` transforms only the Right branch;
Left passes through with the same error untouched. -/
def Either.map (f : α → β) : Either ε α → Either ε β
  | .left e => .left e
  | .right a => .right (f a)

/-- Modelled from the spec: `mapLeft` transforms only the Left branch. -/
def Either.mapLeft (f : ε → ε₂) : Either ε α → Either ε₂ α
  | .left e => .left (f e)
  | .right a => .right a

/-- Modelled from the spec: `Either.chain` is the flattening bind on the
Right branch; a Left propagates unchanged. -/
def Either.chain (f : α → Either ε β) : Either ε α → Either ε β
  | .left e => .left e
  | .right a => f a

/-- Modelled from the spec: `Either.fold` is the sole exit; exactly one
branch runs. -/
def Either.fold (onLeft : ε → ρ) (onRight : α → ρ) : Either ε α → ρ
  | .left e => onLeft e
  | .right a => onRight a

/-- Modelled from the spec: `fromPredicate(pred, onFalse)(a)` is `Right(a)`
if the predicate holds, else `Left(onFalse())`; the failure callback is a
thunk forced only in the failing branch. -/
def Either.fromPredicate (pred : α → Bool) (onFalse : Unit → ε) (a : α) : Either ε α :=
  if pred a then .right a else .left (onFalse ())

/-- Modelled from the spec: the synchronous `tryCatchError` invokes the thunk
(a computation that either returns normally or throws) and captures any
thrown value as a coerced Left; the `Either` codomain makes it total — no raw
throw can reach the caller. -/
def Either.tryCatchError (thunk : Unit → Except Thrown α) : Either JSError α :=
  match thunk () with
  | Except.ok a => .right a
  | Except.error t => .left (coerceError t)

/- ## Counting instrumentation for laziness claims -/

/-- A thunk lifted into a counting semantics: each forcing bumps the
invocation counter by one. -/
def thunkCount (onFalse : Unit → ε) : Nat → ε × Nat :=
  fun k => (onFalse (), k + 1)

/-- Modelled from the spec: `fromPredicate` under the counting semantics —
the failure thunk is forced exactly in the failing branch, which is the
call-by-value translation of `pred(a) ? right(a) : left(onFalse())`. -/
def Either.fromPredicateCount (pred : α → Bool) (onFalseC : Nat → ε × Nat) (a : α)
    (k : Nat) : Either ε α × Nat :=
  if pred a then (.right a, k)
  else
    let p := onFalseC k
    (.left p.1, p.2)

/- ## TaskEither (AsyncResult) type -/

/-- Modelled from the spec: `AsyncResult<E, A>` is a zero-argument deferred
computation that, when invoked, runs the underlying effect and settles into a
`Result<E, A>`, never itself rejecting.  It is embedded as a state-passing
function over an invocation counter: running it consumes the current counter
(the outcomes of the wrapped effect may depend on how often it has run) and
returns the settled `Either` together with the advanced counter, so "the
underlying effect ran again" is observable as counter movement. -/
def TaskEither (ε α : Type) : Type :=
  Nat → Either ε α × Nat

/-- Modelled from the spec: the `ErrorOr` alias fixes the failure side to the
generic error representation. -/
def TaskEither.ErrorOr (α : Type) : Type :=
  TaskEither JSError α

/-- Modelled from the spec: lifting a plain Result into an immediately
settled deferred computation (no underlying effect runs). -/
def TaskEither.ofEither (r : Either ε α) : TaskEither ε α :=
  fun n => (r, n)

/-- Modelled from the spec: the asynchronous `tryCatchError` wraps a
future-returning thunk.  Each invocation re-runs the thunk at the current
invocation index (no caching of the future), awaits it, and settles into
`Right(value)` on fulfillment or `Left(coerced-error)` on rejection; the
`Either` codomain leaves no unhandled rejection. -/
def TaskEither.tryCatchError (thunk : Nat → Except Thrown α) : TaskEither.ErrorOr α :=
  fun n =>
    match thunk n with
    | Except.ok a => (.right a, n + 1)
    | Except.error t => (.left (coerceError t), n + 1)

/-- Modelled from the spec: `TaskEither.map` transforms only the Right branch
of the settled result, once the underlying computation settles. -/
def TaskEither.map (f : α → β) (t : TaskEither ε α) : TaskEither ε β :=
  fun n =>
    let p := t n
    (Either.map f p.1, p.2)

/-- Modelled from the spec: `TaskEither.chain` runs the continuation only on
the Right branch after the first computation settles; a Left settles the
whole chain without running the continuation's effect. -/
def TaskEither.chain (f : α → TaskEither ε β) (t : TaskEither ε α) : TaskEither ε β :=
  fun n =>
    match t n with
    | (.left e, n') => (.left e, n')
    | (.right a, n') => f a n'

/-- Modelled from the spec: running every element of a collection of deferred
computations in input order (elements are fired without waiting on each
other's outcome — every element runs regardless of earlier Lefts), collecting
each settled result. -/
def TaskEither.runAll : List (TaskEither ε α) → Nat → List (Either ε α) × Nat
  | [], n => ([], n)
  | t :: ts, n =>
    let p := t n
    let q := TaskEither.runAll ts p.2
    (p.1 :: q.1, q.2)

/-- Modelled from the spec: combining the settled results of a sequence —
the first Left by input order, otherwise the Right of all success values in
input order. -/
def Either.collectRights : List (Either ε α) → Either ε (List α)
  | [] => .right []
  | .left e :: _ => .left e
  | .right a :: rs => Either.map (fun as => a :: as) (Either.collectRights rs)

/-- Modelled from the spec: `sequence` runs every element's deferred
computation, waits for all of them to settle, and reports the first Left by
input order, or the Rights in input order when all succeed. -/
def TaskEither.sequence (ts : List (TaskEither ε α)) : TaskEither ε (List α) :=
  fun n =>
    let p := TaskEither.runAll ts n
    (Either.collectRights p.1, p.2)

/- ## Pipeline step machinery for the short-circuit claim -/

/-- A single stage of a `Result` pipeline: a `map` or a `chain` application
over a fixed value type. -/
inductive EStep (ε α : Type) : Type where
  | mapStep (f : α → α)
  | chainStep (f : α → Either ε α)

/-- Applying one pipeline stage to a `Result`. -/
def EStep.apply : EStep ε α → Either ε α → Either ε α
  | .mapStep f, r => Either.map f r
  | .chainStep f, r => Either.chain f r

/-- Applying a whole `Result` pipeline left to right. -/
def runPipeline : List (EStep ε α) → Either ε α → Either ε α
  | [], r => r
  | s :: ss, r => runPipeline ss (s.apply r)

/-- Applying one stage while counting callback invocations: the callback runs
exactly when the value is a Right, which is the call-by-value reading of the
branch structure of `map`/`chain`. -/
def EStep.applyCount : EStep ε α → Either ε α → Either ε α × Nat
  | .mapStep _, .left e => (.left e, 0)
  | .mapStep f, .right a => (.right (f a), 1)
  | .chainStep _, .left e => (.left e, 0)
  | .chainStep f, .right a => (f a, 1)

/-- Applying a whole pipeline while accumulating the number of callback
invocations across all stages. -/
def runPipelineCount : List (EStep ε α) → Either ε α → Either ε α × Nat
  | [], r => (r, 0)
  | s :: ss, r =>
    let p := s.applyCount r
    let q := runPipelineCount ss p.1
    (q.1, p.2 + q.2)

/-- A single stage of an `AsyncResult` pipeline. -/
inductive TStep (ε α : Type) : Type where
  | mapStep (f : α → α)
  | chainStep (f : α → TaskEither ε α)

/-- Applying one `AsyncResult` pipeline stage. -/
def TStep.apply : TStep ε α → TaskEither ε α → TaskEither ε α
  | .mapStep f, t => TaskEither.map f t
  | .chainStep f, t => TaskEither.chain f t

/-- Applying a whole `AsyncResult` pipeline left to right. -/
def runTPipeline : List (TStep ε α) → TaskEither ε α → TaskEither ε α
  | [], t => t
  | s :: ss, t => runTPipeline ss (s.apply t)

/-- Modelled from the spec: the success payloads of a list of settled
results, in input order. -/
def Either.rightValues : List (Either ε α) → List α
  | [] => []
  | .left _ :: rs => Either.rightValues rs
  | .right a :: rs => a :: Either.rightValues rs

/- ## Helper lemmas -/

/-- A Left entering a counted `Result` pipeline leaves it unchanged with zero
callback invocations. -/
theorem runPipelineCount_left (steps : List (EStep ε α)) (e : ε) :
    runPipelineCount steps (Either.left e) = (Either.left e, 0) := by
  induction steps with
  | nil => rfl
  | cons s ss ih =>
    cases s with
    | mapStep f => simp [runPipelineCount, EStep.applyCount, ih]
    | chainStep f => simp [runPipelineCount, EStep.applyCount, ih]

/-- A deferred computation that settles Left passes through a whole
`AsyncResult` pipeline unchanged, with no further effect running. -/
theorem runTPipeline_left (tsteps : List (TStep ε α)) :
    ∀ (t : TaskEither ε α) (n n' : Nat) (e : ε),
      t n = (Either.left e, n') → runTPipeline tsteps t n = (Either.left e, n') := by
  induction tsteps with
  | nil => intro t n n' e h; simpa [runTPipeline] using h
  | cons s ss ih =>
    intro t n n' e h
    cases s with
    | mapStep f =>
      exact ih _ n n' e (by simp [TStep.apply, TaskEither.map, h, Either.map])
    | chainStep f =>
      exact ih _ n n' e (by simp [TStep.apply, TaskEither.chain, h])

/-- Combining results whose prefix is all Rights yields the first Left. -/
theorem collectRights_append_left (rs1 : List (Either ε α)) (e : ε)
    (rs2 : List (Either ε α)) (h : ∀ r ∈ rs1, Either.isRight r = true) :
    Either.collectRights (rs1 ++ Either.left e :: rs2) = Either.left e := by
  induction rs1 with
  | nil => rfl
  | cons r rs ih =>
    cases r with
    | left e0 =>
      have hh := h _ (List.mem_cons_self _ _)
      simp [Either.isRight] at hh
    | right a =>
      have := ih (fun r hr => h r (List.mem_cons_of_mem _ hr))
      simp [Either.collectRights, this, Either.map]

/-- Combining an all-Rights result list yields the Right of the payloads in
order. -/
theorem collectRights_all_right (rs : List (Either ε α))
    (h : ∀ r ∈ rs, Either.isRight r = true) :
    Either.collectRights rs = Either.right (Either.rightValues rs) := by
  induction rs with
  | nil => rfl
  | cons r rs ih =>
    cases r with
    | left e0 =>
      have hh := h _ (List.mem_cons_self _ _)
      simp [Either.isRight] at hh
    | right a =>
      have := ih (fun r hr => h r (List.mem_cons_of_mem _ hr))
      simp [Either.collectRights, Either.rightValues, this, Either.map]

/-- Folding composition and then applying agrees with piping the value. -/
theorem flow_foldl_apply (fns : List (α → α)) :
    ∀ (g : α → α) (x : α),
      (fns.foldl (fun g f => fun x => f (g x)) g) x = pipe (g x) fns := by
  induction fns with
  | nil => intro g x; rfl
  | cons f fns ih =>
    intro g x
    have := ih (fun x => f (g x)) x
    simpa [pipe] using this

/-- Each run of the counted pipe performs exactly one invocation per listed
function and recomputes the piped value. -/
theorem pipeCount_eq (fns : List (α → α)) :
    ∀ (x : α) (k : Nat), pipeCount x fns k = (pipe x fns, k + fns.length) := by
  induction fns with
  | nil => intro x k; rfl
  | cons f fns ih =>
    intro x k
    calc pipeCount x (f :: fns) k
        = pipeCount (f x) fns (k + 1) := rfl
      _ = (pipe (f x) fns, (k + 1) + fns.length) := ih (f x) (k + 1)
      _ = (pipe x (f :: fns), k + (f :: fns).length) := by
          have h1 : pipe x (f :: fns) = pipe (f x) fns := rfl
          have h2 : k + (f :: fns).length = (k + 1) + fns.length := by
            simp [List.length_cons]
            omega
          rw [h1, h2]

/- ## Claim theorems -/

/-- Claim C1: in every Result/AsyncResult pipeline, once a Left is produced,
every subsequent `map`/`chain` application passes that Left through unchanged
without invoking its callback (callback count 0 in the counted Result
pipeline; no effect-counter movement in the AsyncResult pipeline), and the
error carried by the final Left equals the error of the first Left
produced. -/
theorem c1_left_short_circuit :
    (∀ (ε α : Type) (steps : List (EStep ε α)) (e : ε),
      runPipelineCount steps (Either.left e) = (Either.left e, 0)) ∧
    (∀ (ε α : Type) (tsteps : List (TStep ε α)) (t : TaskEither ε α)
      (n n' : Nat) (e : ε),
      t n = (Either.left e, n') → runTPipeline tsteps t n = (Either.left e, n')) :=
  ⟨fun _ _ steps e => runPipelineCount_left steps e,
   fun _ _ tsteps t n n' e h => runTPipeline_left tsteps t n n' e h⟩

/-- Witness for C1 at a concrete pipeline starting from a Left. -/
theorem c1_left_short_circuit_witness :
    runPipelineCount [EStep.mapStep (fun a : Nat => a + 1)] (Either.left "boom")
      = (Either.left "boom", 0) ∧
    runTPipeline
      [TStep.chainStep (fun a : Nat => TaskEither.ofEither (Either.right (a + 1)))]
      (TaskEither.ofEither (Either.left "boom")) 0 = (Either.left "boom", 0) :=
  ⟨c1_left_short_circuit.1 String Nat _ _,
   c1_left_short_circuit.2 String Nat _ _ 0 0 "boom" rfl⟩

/-- Claim C2: the synchronous `tryCatchError` invokes the thunk and returns
`Right(value)` on normal return; if the thunk throws any value (Error
instance, plain object, or primitive), it returns a Left whose payload is the
coerced Error-shaped failure, and every call yields a Result (never a raw
throw to the caller). -/
theorem c2_tryCatchError_total :
    ∀ (α : Type) (thunk : Unit → Except Thrown α),
      (∀ a, thunk () = Except.ok a → Either.tryCatchError thunk = Either.right a) ∧
      (∀ t, thunk () = Except.error t →
        Either.tryCatchError thunk = Either.left (coerceError t)) ∧
      (Either.isLeft (Either.tryCatchError thunk) = true ∨
        Either.isRight (Either.tryCatchError thunk) = true) := by
  intro α thunk
  refine ⟨fun a h => ?_, fun t h => ?_, ?_⟩
  · simp [Either.tryCatchError, h]
  · simp [Either.tryCatchError, h]
  · cases h : thunk () with
    | ok a => exact Or.inr (by simp [Either.tryCatchError, h, Either.isRight])
    | error t => exact Or.inl (by simp [Either.tryCatchError, h, Either.isLeft])

/-- Witness for C2: a thunk throwing a primitive string yields a Left with an
Error-shaped payload. -/
theorem c2_tryCatchError_total_witness :
    Either.tryCatchError
      ((fun _ => Except.error (Thrown.value (JSValue.str "boom"))) :
        Unit → Except Thrown Nat)
      = Either.left (JSError.mk "boom" (Option.some (JSValue.str "boom"))) :=
  (c2_tryCatchError_total Nat _).2.1 (Thrown.value (JSValue.str "boom")) rfl

/-- Claim C3: the asynchronous `tryCatchError` yields a deferred computation
that, each time it is invoked, re-runs the thunk at the current invocation
index (the counter advances by exactly one fresh run per invocation — no
cached future), awaits it, and settles `Right(value)` on fulfillment or
`Left(coerced-error)` on rejection, never an unhandled rejection. -/
theorem c3_tryCatchError_async :
    ∀ (α : Type) (thunk : Nat → Except Thrown α) (n : Nat),
      (∀ a, thunk n = Except.ok a →
        TaskEither.tryCatchError thunk n = (Either.right a, n + 1)) ∧
      (∀ t, thunk n = Except.error t →
        TaskEither.tryCatchError thunk n = (Either.left (coerceError t), n + 1)) := by
  intro α thunk n
  constructor
  · intro a h; simp [TaskEither.tryCatchError, h]
  · intro t h; simp [TaskEither.tryCatchError, h]

/-- Witness for C3: two successive invocations re-run an index-dependent
thunk and observe different outcomes (no caching), and a rejecting thunk
settles into a coerced Left. -/
theorem c3_tryCatchError_async_witness :
    TaskEither.tryCatchError ((fun k => Except.ok k) : Nat → Except Thrown Nat) 0
      = (Either.right 0, 1) ∧
    TaskEither.tryCatchError ((fun k => Except.ok k) : Nat → Except Thrown Nat) 1
      = (Either.right 1, 2) ∧
    TaskEither.tryCatchError
      ((fun _ => Except.error (Thrown.value JSValue.null)) : Nat → Except Thrown Nat) 0
      = (Either.left (JSError.mk "null" (Option.some JSValue.null)), 1) :=
  ⟨(c3_tryCatchError_async Nat _ 0).1 0 rfl,
   (c3_tryCatchError_async Nat _ 1).1 1 rfl,
   (c3_tryCatchError_async Nat _ 0).2 (Thrown.value JSValue.null) rfl⟩

/-- Claim C4: when at least one element of a collection of AsyncResult
computations settles Left, `sequence` waits for all computations to settle
(its final effect counter is the counter after running every element) and
yields a single Left equal to the error of the first failing element in input
order; real-time settling order is abstracted by the deterministic effect
counter, so the result depends only on input order. -/
theorem c4_sequence_first_left :
    ∀ (ε α : Type) (ts : List (TaskEither ε α)) (n : Nat)
      (rs1 : List (Either ε α)) (e : ε) (rs2 : List (Either ε α)),
      (TaskEither.runAll ts n).1 = rs1 ++ Either.left e :: rs2 →
      (∀ r ∈ rs1, Either.isRight r = true) →
      TaskEither.sequence ts n = (Either.left e, (TaskEither.runAll ts n).2) := by
  intro ε α ts n rs1 e rs2 h hall
  show (Either.collectRights (TaskEither.runAll ts n).1, (TaskEither.runAll ts n).2) = _
  rw [h, collectRights_append_left rs1 e rs2 hall]

/-- Witness for C4: three effectful computations, the second rejecting; the
sequence is the Left of the second element's error and all three effects
ran. -/
theorem c4_sequence_first_left_witness :
    TaskEither.sequence
      [TaskEither.tryCatchError ((fun _ => Except.ok 1) : Nat → Except Thrown Nat),
       TaskEither.tryCatchError
         ((fun _ => Except.error (Thrown.value (JSValue.str "dead"))) :
           Nat → Except Thrown Nat),
       TaskEither.tryCatchError ((fun _ => Except.ok 3) : Nat → Except Thrown Nat)] 0
      = (Either.left (JSError.mk "dead" (Option.some (JSValue.str "dead"))), 3) :=
  c4_sequence_first_left JSError Nat _ 0 [Either.right 1]
    (JSError.mk "dead" (Option.some (JSValue.str "dead"))) [Either.right 3]
    rfl (by decide)

/-- Claim C5: when every element of a collection of AsyncResult computations
settles Right, `sequence` yields a Right whose payload is the list of success
values in input order. -/
theorem c5_sequence_all_rights :
    ∀ (ε α : Type) (ts : List (TaskEither ε α)) (n : Nat),
      (∀ r ∈ (TaskEither.runAll ts n).1, Either.isRight r = true) →
      TaskEither.sequence ts n =
        (Either.right (Either.rightValues (TaskEither.runAll ts n).1),
         (TaskEither.runAll ts n).2) := by
  intro ε α ts n h
  show (Either.collectRights (TaskEither.runAll ts n).1, (TaskEither.runAll ts n).2) = _
  rw [collectRights_all_right _ h]

/-- Witness for C5: three computations each resolving to Right "safe"
sequence to Right(["safe","safe","safe"]). -/
theorem c5_sequence_all_rights_witness :
    TaskEither.sequence
      [TaskEither.tryCatchError ((fun _ => Except.ok "safe") : Nat → Except Thrown String),
       TaskEither.tryCatchError ((fun _ => Except.ok "safe") : Nat → Except Thrown String),
       TaskEither.tryCatchError ((fun _ => Except.ok "safe") : Nat → Except Thrown String)] 0
      = (Either.right ["safe", "safe", "safe"], 3) :=
  c5_sequence_all_rights JSError String _ 0 (by decide)

/-- Claim C6: for every Optional or Result value and every pair of composable
functions, mapping the composition equals composing the maps, and mapping the
identity is the identity (functor composition and identity laws). -/
theorem c6_functor_laws :
    ∀ (ε α β γ : Type) (f : β → γ) (g : α → β),
      (∀ v : Optional α,
        Optional.map f (Optional.map g v) = Optional.map (fun x => f (g x)) v) ∧
      (∀ v : Optional α, Optional.map (fun x => x) v = v) ∧
      (∀ w : Either ε α,
        Either.map f (Either.map g w) = Either.map (fun x => f (g x)) w) ∧
      (∀ w : Either ε α, Either.map (fun x => x) w = w) := by
  intro ε α β γ f g
  refine ⟨fun v => ?_, fun v => ?_, fun w => ?_, fun w => ?_⟩
  · cases v <;> rfl
  · cases v <;> rfl
  · cases w <;> rfl
  · cases w <;> rfl

/-- Claim C7: `fromPredicate(pred, onFalse)(a)` yields `Right(a)` when the
predicate holds and `Left(onFalse())` otherwise, and under the counting
semantics the failure callback is forced exactly zero times when the
predicate holds and exactly once when it does not. -/
theorem c7_fromPredicate_lazy :
    ∀ (ε α : Type) (pred : α → Bool) (onFalse : Unit → ε) (a : α) (k : Nat),
      (pred a = true →
        Either.fromPredicate pred onFalse a = Either.right a ∧
        Either.fromPredicateCount pred (thunkCount onFalse) a k = (Either.right a, k)) ∧
      (pred a = false →
        Either.fromPredicate pred onFalse a = Either.left (onFalse ()) ∧
        Either.fromPredicateCount pred (thunkCount onFalse) a k =
          (Either.left (onFalse ()), k + 1)) := by
  intro ε α pred onFalse a k
  constructor
  · intro h
    exact ⟨by simp [Either.fromPredicate, h],
           by simp [Either.fromPredicateCount, h]⟩
  · intro h
    exact ⟨by simp [Either.fromPredicate, h],
           by simp [Either.fromPredicateCount, h, thunkCount]⟩

/-- Witness for C7, on the age-gating scenario: age 23 passes with zero
callback forcings, age 8 fails with exactly one. -/
theorem c7_fromPredicate_lazy_witness :
    (Either.fromPredicate (fun age => decide (21 ≤ age)) (fun _ => "too young") 23
        = Either.right 23 ∧
      Either.fromPredicateCount (fun age => decide (21 ≤ age))
        (thunkCount (fun _ => "too young")) 23 0 = (Either.right 23, 0)) ∧
    (Either.fromPredicate (fun age => decide (21 ≤ age)) (fun _ => "too young") 8
        = Either.left "too young" ∧
      Either.fromPredicateCount (fun age => decide (21 ≤ age))
        (thunkCount (fun _ => "too young")) 8 0 = (Either.left "too young", 1)) :=
  ⟨(c7_fromPredicate_lazy String Nat _ _ 23 0).1 (by decide),
   (c7_fromPredicate_lazy String Nat _ _ 8 0).2 (by decide)⟩

/-- Claim C8: `flow(fn1, …, fnN)` applied to `x` equals
`pipe(x, fn1, …, fnN)`, and each invocation of the counted pipe re-runs the
whole chain — every listed function is invoked exactly once per run and the
value is recomputed from the supplied input, with no memoization across
runs. -/
theorem c8_flow_equals_pipe :
    ∀ (α : Type) (fns : List (α → α)) (x : α) (k : Nat),
      flow fns x = pipe x fns ∧
      pipeCount x fns k = (pipe x fns, k + fns.length) :=
  fun _ fns x k => ⟨flow_foldl_apply fns (fun x => x) x, pipeCount_eq fns x k⟩

/-- Claim C9: piping an absent nullable through `map (+3)` and
`getOrElse 0` yields 0, and piping the nullable 5 through the same chain
yields 8. -/
theorem c9_concrete_optional_pipeline :
    pipe2 (Optional.fromNullable (Option.none : Option Nat))
      (Optional.map (fun x => x + 3)) (Optional.getOrElse (fun _ => 0)) = 0 ∧
    pipe2 (Optional.fromNullable (Option.some (5 : Nat)))
      (Optional.map (fun x => x + 3)) (Optional.getOrElse (fun _ => 0)) = 8 :=
  ⟨rfl, rfl⟩

/-- Claim C10: `isLeft` holds exactly on Lefts and `isRight` exactly on
Rights — the variant predicates decide which constructor built the
Result. -/
theorem c10_variant_predicates :
    ∀ (ε α : Type) (e : ε) (a : α),
      Either.isLeft (Either.left e : Either ε α) = true ∧
      Either.isRight (Either.left e : Either ε α) = false ∧
      Either.isLeft (Either.right a : Either ε α) = false ∧
      Either.isRight (Either.right a : Either ε α) = true :=
  fun _ _ _ _ => ⟨rfl, rfl, rfl, rfl⟩
